import Mathlib

/-!
Verification of the teslamate-hud telemetry relay and state-reconstruction
layer, shallowly embedded from the repository sources:

* `src/services/mqttService.ts` (`MqttService.connect`, `ws.onmessage` — the
  State Reducer; `ws.onclose` / `disconnect` — the Link Manager),
* `src/App.tsx` (`updateData`, `INITIAL_DATA` — the merge step),
* `src/server.js` (`topicCache`, cache replay on client connection).

JavaScript numbers that can be `NaN` are modelled by `JsNum`; wall-clock
time (`Date.now()`) in milliseconds is an explicit rational parameter, and
`new Date(t).toISOString()` is modelled by the injective constructor
`ETime.iso t`.
-/

/-- Model of a JavaScript number as produced by `parseFloat` / `parseInt`:
either the NaN sentinel or a rational value. -/
inductive JsNum where
  | nan : JsNum
  | val (q : ℚ) : JsNum
deriving DecidableEq, Repr

/-- Model of `x || 0` applied to a JavaScript number (line 212 of
`mqttService.ts`): NaN, `0` and `-0` are falsy, so they all collapse to `0`;
every other number is returned unchanged. -/
def JsNum.or0 : JsNum → JsNum
  | .nan => .val 0
  | .val q => .val q

/-- Model of the JavaScript comparison `x > 0` (false on NaN). -/
def JsNum.gtZero : JsNum → Bool
  | .nan => false
  | .val q => decide (0 < q)

/-- Rational value of a `JsNum`, with NaN sent to `0` (used only under a
`gtZero` guard, where the NaN case is unreachable). -/
def JsNum.toQ : JsNum → ℚ
  | .nan => 0
  | .val q => q

/-- Value of the `estArrivalTime` field: either a raw string (legacy
`est_arrival_time` payloads and the initial/cleared `''`), or
`new Date(t).toISOString()` for a millisecond timestamp `t`, modelled by the
injective constructor `iso t`. -/
inductive ETime where
  | str (s : String) : ETime
  | iso (t : ℚ) : ETime
deriving DecidableEq, Repr

/-- The `ActiveRoute` interface from `src/types.ts`: the shape of a
successfully parsed `active_route` JSON payload. -/
structure Route where
  destination : String
  energy_at_arrival : ℚ
  miles_to_arrival : ℚ
  minutes_to_arrival : ℚ
  traffic_minutes_delay : ℚ
  location : Option (ℚ × ℚ)
  error : Option String
deriving DecidableEq, Repr

/-- JavaScript truthiness of a `string | null` value (`route.error`):
truthy iff non-null and non-empty. -/
def truthyStr : Option String → Bool
  | none => false
  | some s => s ≠ ""

/-- The `TeslaData` interface from `src/types.ts`: the client-side
vehicle-state record. -/
structure TeslaData where
  speed : JsNum
  batteryLevel : JsNum
  power : JsNum
  gear : String
  range : JsNum
  outsideTemp : JsNum
  insideTemp : JsNum
  odometer : JsNum
  state : String
  isLocked : Bool
  isCharging : Bool
  heading : JsNum
  elevation : JsNum
  geofence : String
  tpms_front_left : JsNum
  tpms_front_right : JsNum
  tpms_rear_left : JsNum
  tpms_rear_right : JsNum
  chargerPower : JsNum
  timeToFullCharge : JsNum
  chargeLimitSoc : JsNum
  destination : String
  estArrivalTime : ETime
  timeToArrival : JsNum
  activeRoute : Option Route
deriving DecidableEq, Repr

/-- The `INITIAL_DATA` constant from `src/App.tsx`. -/
def initialData : TeslaData where
  speed := .val 0
  batteryLevel := .val 0
  power := .val 0
  gear := "P"
  range := .val 0
  outsideTemp := .val 0
  insideTemp := .val 0
  odometer := .val 0
  state := "asleep"
  isLocked := true
  isCharging := false
  heading := .val 0
  elevation := .val 0
  geofence := ""
  tpms_front_left := .val 0
  tpms_front_right := .val 0
  tpms_rear_left := .val 0
  tpms_rear_right := .val 0
  chargerPower := .val 0
  timeToFullCharge := .val 0
  chargeLimitSoc := .val 0
  destination := ""
  estArrivalTime := .str ""
  timeToArrival := .val 0
  activeRoute := none

/-- A `Partial<TeslaData>` value: the `updates` object built by the
`ws.onmessage` handler. A field is `none` exactly when the handler did not
assign the corresponding key. -/
structure PartialData where
  speed : Option JsNum := none
  batteryLevel : Option JsNum := none
  power : Option JsNum := none
  gear : Option String := none
  range : Option JsNum := none
  outsideTemp : Option JsNum := none
  insideTemp : Option JsNum := none
  odometer : Option JsNum := none
  state : Option String := none
  isLocked : Option Bool := none
  isCharging : Option Bool := none
  heading : Option JsNum := none
  elevation : Option JsNum := none
  geofence : Option String := none
  tpms_front_left : Option JsNum := none
  tpms_front_right : Option JsNum := none
  tpms_rear_left : Option JsNum := none
  tpms_rear_right : Option JsNum := none
  chargerPower : Option JsNum := none
  timeToFullCharge : Option JsNum := none
  chargeLimitSoc : Option JsNum := none
  destination : Option String := none
  estArrivalTime : Option ETime := none
  timeToArrival : Option JsNum := none
  activeRoute : Option (Option Route) := none
deriving DecidableEq, Repr

/-- The empty update object (`const updates = {}` before any assignment). -/
def emptyU : PartialData := {}

/-- The merge step `setData(prev => ({ ...prev, ...updates }))` from
`updateData` in `src/App.tsx`: every key present in `updates` overwrites the
previous value, every absent key keeps it. -/
def merge (s : TeslaData) (u : PartialData) : TeslaData where
  speed := u.speed.getD s.speed
  batteryLevel := u.batteryLevel.getD s.batteryLevel
  power := u.power.getD s.power
  gear := u.gear.getD s.gear
  range := u.range.getD s.range
  outsideTemp := u.outsideTemp.getD s.outsideTemp
  insideTemp := u.insideTemp.getD s.insideTemp
  odometer := u.odometer.getD s.odometer
  state := u.state.getD s.state
  isLocked := u.isLocked.getD s.isLocked
  isCharging := u.isCharging.getD s.isCharging
  heading := u.heading.getD s.heading
  elevation := u.elevation.getD s.elevation
  geofence := u.geofence.getD s.geofence
  tpms_front_left := u.tpms_front_left.getD s.tpms_front_left
  tpms_front_right := u.tpms_front_right.getD s.tpms_front_right
  tpms_rear_left := u.tpms_rear_left.getD s.tpms_rear_left
  tpms_rear_right := u.tpms_rear_right.getD s.tpms_rear_right
  chargerPower := u.chargerPower.getD s.chargerPower
  timeToFullCharge := u.timeToFullCharge.getD s.timeToFullCharge
  chargeLimitSoc := u.chargeLimitSoc.getD s.chargeLimitSoc
  destination := u.destination.getD s.destination
  estArrivalTime := u.estArrivalTime.getD s.estArrivalTime
  timeToArrival := u.timeToArrival.getD s.timeToArrival
  activeRoute := u.activeRoute.getD s.activeRoute

/-- One decimal digit's value, `none` on a non-digit character. -/
def digitVal (c : Char) : Option ℕ :=
  if c.isDigit then some (c.toNat - 48) else none

/-- Longest prefix of decimal digits, returned with the rest of the input. -/
def takeDigits : List Char → List ℕ × List Char
  | [] => ([], [])
  | c :: cs =>
    match digitVal c with
    | some d => let (ds, r) := takeDigits cs; (d :: ds, r)
    | none => ([], c :: cs)

/-- Integer value of a digit list read left to right. -/
def intVal (ds : List ℕ) : ℚ :=
  ds.foldl (fun acc d => 10 * acc + (d : ℚ)) 0

/-- Fractional value of the digit list after the decimal point. -/
def fracVal (ds : List ℕ) : ℚ :=
  ds.foldr (fun d acc => ((d : ℚ) + acc) / 10) 0

/-- Model of the JavaScript `parseFloat` builtin on the decimal forms used
by the telemetry payloads (optional sign, digits, optional fraction; the
longest numeric prefix is parsed and trailing garbage is ignored); NaN when
no leading number can be read. -/
def parseFloat (s : String) : JsNum :=
  let p : ℚ × List Char :=
    match s.data with
    | '-' :: r => (-1, r)
    | '+' :: r => (1, r)
    | cs => (1, cs)
  let (ip, rest) := takeDigits p.2
  if ip.isEmpty then
    match rest with
    | '.' :: r =>
      let (fp, _) := takeDigits r
      if fp.isEmpty then .nan else .val (p.1 * fracVal fp)
    | _ => .nan
  else
    match rest with
    | '.' :: r =>
      let (fp, _) := takeDigits r
      .val (p.1 * (intVal ip + fracVal fp))
    | _ => .val (p.1 * intVal ip)

/-- Model of the JavaScript `parseInt` builtin in base 10 (optional sign,
longest digit prefix); NaN when no digit can be read. -/
def parseInt (s : String) : JsNum :=
  let p : ℚ × List Char :=
    match s.data with
    | '-' :: r => (-1, r)
    | '+' :: r => (1, r)
    | cs => (1, cs)
  let (ip, _) := takeDigits p.2
  if ip.isEmpty then .nan else .val (p.1 * intVal ip)

/-- Line 212: `if (topic === prefix + '/speed') updates.speed = parseFloat(data) || 0`. -/
def upSpeed (pfx topic data : String) (u : PartialData) : PartialData :=
  if topic = pfx ++ "/speed" then { u with speed := some (parseFloat data).or0 } else u

/-- Line 213: battery_level handler (`parseInt`). -/
def upBatteryLevel (pfx topic data : String) (u : PartialData) : PartialData :=
  if topic = pfx ++ "/battery_level" then { u with batteryLevel := some (parseInt data) } else u

/-- Line 214: power handler. -/
def upPower (pfx topic data : String) (u : PartialData) : PartialData :=
  if topic = pfx ++ "/power" then { u with power := some (parseFloat data) } else u

/-- Line 215: shift_state handler (raw string into `gear`). -/
def upGear (pfx topic data : String) (u : PartialData) : PartialData :=
  if topic = pfx ++ "/shift_state" then { u with gear := some data } else u

/-- Line 216: ideal_battery_range_km handler. -/
def upRange (pfx topic data : String) (u : PartialData) : PartialData :=
  if topic = pfx ++ "/ideal_battery_range_km" then { u with range := some (parseFloat data) } else u

/-- Line 217: outside_temp handler. -/
def upOutsideTemp (pfx topic data : String) (u : PartialData) : PartialData :=
  if topic = pfx ++ "/outside_temp" then { u with outsideTemp := some (parseFloat data) } else u

/-- Line 218: inside_temp handler. -/
def upInsideTemp (pfx topic data : String) (u : PartialData) : PartialData :=
  if topic = pfx ++ "/inside_temp" then { u with insideTemp := some (parseFloat data) } else u

/-- Line 219: odometer handler. -/
def upOdometer (pfx topic data : String) (u : PartialData) : PartialData :=
  if topic = pfx ++ "/odometer" then { u with odometer := some (parseFloat data) } else u

/-- Line 220: heading handler. -/
def upHeading (pfx topic data : String) (u : PartialData) : PartialData :=
  if topic = pfx ++ "/heading" then { u with heading := some (parseFloat data) } else u

/-- Line 221: elevation handler. -/
def upElevation (pfx topic data : String) (u : PartialData) : PartialData :=
  if topic = pfx ++ "/elevation" then { u with elevation := some (parseFloat data) } else u

/-- Line 222: geofence handler (raw string). -/
def upGeofence (pfx topic data : String) (u : PartialData) : PartialData :=
  if topic = pfx ++ "/geofence" then { u with geofence := some data } else u

/-- Lines 224–227: state handler, also deriving `isCharging = (data === 'charging')`. -/
def upState (pfx topic data : String) (u : PartialData) : PartialData :=
  if topic = pfx ++ "/state" then
    { u with state := some data, isCharging := some (data = "charging") } else u

/-- Line 228: locked handler (`data === 'true'`). -/
def upLocked (pfx topic data : String) (u : PartialData) : PartialData :=
  if topic = pfx ++ "/locked" then { u with isLocked := some (data = "true") } else u

/-- Line 231: charger_power handler. -/
def upChargerPower (pfx topic data : String) (u : PartialData) : PartialData :=
  if topic = pfx ++ "/charger_power" then { u with chargerPower := some (parseFloat data) } else u

/-- Line 232: time_to_full_charge handler. -/
def upTimeToFullCharge (pfx topic data : String) (u : PartialData) : PartialData :=
  if topic = pfx ++ "/time_to_full_charge" then
    { u with timeToFullCharge := some (parseFloat data) } else u

/-- Line 233: charge_limit_soc handler (`parseInt`). -/
def upChargeLimitSoc (pfx topic data : String) (u : PartialData) : PartialData :=
  if topic = pfx ++ "/charge_limit_soc" then { u with chargeLimitSoc := some (parseInt data) } else u

/-- Line 236: legacy destination handler. -/
def upDestination (pfx topic data : String) (u : PartialData) : PartialData :=
  if topic = pfx ++ "/destination" then { u with destination := some data } else u

/-- Line 237: legacy est_arrival_time handler (raw string). -/
def upEstArrivalTime (pfx topic data : String) (u : PartialData) : PartialData :=
  if topic = pfx ++ "/est_arrival_time" then { u with estArrivalTime := some (ETime.str data) } else u

/-- Line 238: legacy time_to_arrival handler. -/
def upTimeToArrival (pfx topic data : String) (u : PartialData) : PartialData :=
  if topic = pfx ++ "/time_to_arrival" then { u with timeToArrival := some (parseFloat data) } else u

/-- Line 241: new flat active_route_destination handler. -/
def upARDest (pfx topic data : String) (u : PartialData) : PartialData :=
  if topic = pfx ++ "/active_route_destination" then { u with destination := some data } else u

/-- Lines 242–248: active_route_minutes_to_arrival handler. `timeToArrival`
is always overwritten with the parsed value; `estArrivalTime` is derived
from the current wall clock only when `mins > 0`. -/
def upARMins (pfx topic data : String) (now : ℚ) (u : PartialData) : PartialData :=
  if topic = pfx ++ "/active_route_minutes_to_arrival" then
    let mins := parseFloat data
    let u1 := { u with timeToArrival := some mins }
    if mins.gtZero then
      { u1 with estArrivalTime := some (.iso (now + mins.toQ * 60000)) }
    else u1
  else u

/-- Lines 251–272: rich active_route JSON handler, with its inner
`try/catch` around `JSON.parse`. -/
def upAR (parse : String → Except Unit Route) (pfx topic data : String) (now : ℚ)
    (u : PartialData) : PartialData :=
  if topic = pfx ++ "/active_route" then
    match parse data with
    | .ok route =>
      if truthyStr route.error then
        { u with activeRoute := some none, destination := some "",
                 timeToArrival := some (.val 0),
                 estArrivalTime := some (ETime.str "") }
      else
        let u1 := { u with activeRoute := some (some route) }
        let u2 := if route.destination ≠ "" then
          { u1 with destination := some route.destination } else u1
        if route.minutes_to_arrival ≠ 0 then
          { u2 with timeToArrival := some (.val route.minutes_to_arrival),
                    estArrivalTime :=
                      some (.iso (now + route.minutes_to_arrival * 60000)) }
        else u2
    | .error _ =>
      { u with activeRoute := some none, destination := some "" }
  else u

/-- The update object computed by the `ws.onmessage` handler of
`MqttService.connect` (`src/services/mqttService.ts`, lines 207–272) for one
relayed `(topic, data)` pair: the sequential conditional assignments of the
source, applied in source order. `parse` abstracts the `JSON.parse` builtin
applied to the `active_route` payload (a `.error ()` result models a thrown
`SyntaxError`, caught by the handler's inner `try/catch`); `pfx` is the
string built from `config.topicPrefix` and `config.carId`, and `now` is
`Date.now()` at processing time. -/
def mkUpdates (parse : String → Except Unit Route) (pfx topic data : String)
    (now : ℚ) : PartialData :=
  emptyU
  |> upSpeed pfx topic data
  |> upBatteryLevel pfx topic data
  |> upPower pfx topic data
  |> upGear pfx topic data
  |> upRange pfx topic data
  |> upOutsideTemp pfx topic data
  |> upInsideTemp pfx topic data
  |> upOdometer pfx topic data
  |> upHeading pfx topic data
  |> upElevation pfx topic data
  |> upGeofence pfx topic data
  |> upState pfx topic data
  |> upLocked pfx topic data
  |> upChargerPower pfx topic data
  |> upTimeToFullCharge pfx topic data
  |> upChargeLimitSoc pfx topic data
  |> upDestination pfx topic data
  |> upEstArrivalTime pfx topic data
  |> upTimeToArrival pfx topic data
  |> upARDest pfx topic data
  |> upARMins pfx topic data now
  |> upAR parse pfx topic data now

/-- A relayed telemetry message as seen by the client after unwrapping the
relay envelope: topic string and raw payload string. The envelope's
`timestamp` field is never read by the client and is omitted. -/
structure Msg where
  topic : String
  data : String
deriving DecidableEq, Repr

/-- One State Reducer step: compute the update object and, when it is
non-empty (`Object.keys(updates).length > 0`), hand it to `onDataUpdate`,
which merges it into the record (`updateData` in `src/App.tsx`). -/
def step (parse : String → Except Unit Route) (pfx : String) (s : TeslaData)
    (m : Msg) (now : ℚ) : TeslaData :=
  let u := mkUpdates parse pfx m.topic m.data now
  if u = emptyU then s else merge s u

/-- Run the State Reducer over a sequence of messages, each paired with the
wall-clock time at which it is processed. -/
def run (parse : String → Except Unit Route) (pfx : String) (s : TeslaData)
    (l : List (Msg × ℚ)) : TeslaData :=
  l.foldl (fun st p => step parse pfx st p.1 p.2) s

/-- Whether the non-emptiness check passes and the `onDataUpdate` callback is
invoked for this message. -/
def emitted (parse : String → Except Unit Route) (pfx topic data : String)
    (now : ℚ) : Bool :=
  mkUpdates parse pfx topic data now ≠ emptyU

/-- The full topic strings recognised by the reducer's dispatch table. -/
def knownTopics (pfx : String) : List String :=
  [pfx ++ "/speed", pfx ++ "/battery_level", pfx ++ "/power",
   pfx ++ "/shift_state", pfx ++ "/ideal_battery_range_km",
   pfx ++ "/outside_temp", pfx ++ "/inside_temp", pfx ++ "/odometer",
   pfx ++ "/heading", pfx ++ "/elevation", pfx ++ "/geofence",
   pfx ++ "/state", pfx ++ "/locked", pfx ++ "/charger_power",
   pfx ++ "/time_to_full_charge", pfx ++ "/charge_limit_soc",
   pfx ++ "/destination", pfx ++ "/est_arrival_time",
   pfx ++ "/time_to_arrival", pfx ++ "/active_route_destination",
   pfx ++ "/active_route_minutes_to_arrival", pfx ++ "/active_route"]

/-- The navigation topics: the three families that write the shared
`destination` / `estArrivalTime` / `timeToArrival` / `activeRoute` fields. -/
def navTopics (pfx : String) : List String :=
  [pfx ++ "/destination", pfx ++ "/est_arrival_time",
   pfx ++ "/time_to_arrival", pfx ++ "/active_route_destination",
   pfx ++ "/active_route_minutes_to_arrival", pfx ++ "/active_route"]

theorem parseFloat_frac_eval : parseFloat ("12.5") = .val (25/2) := by
  simp [parseFloat, takeDigits, digitVal]
  norm_num [intVal, fracVal]

theorem parseFloat_nonnumeric_eval : parseFloat ("abc") = .nan := by decide

theorem parseFloat_neg_eval : parseFloat ("-3") = .val (-3) := by
  simp [parseFloat, takeDigits, digitVal]
  norm_num [intVal]

theorem parseInt_eval : parseInt ("88") = .val 88 := by
  simp [parseInt, takeDigits, digitVal]
  norm_num [intVal]

theorem parseFloat_or0_eval : (parseFloat ("abc")).or0 = .val 0 := by decide

/-- Appending to a fixed prefix string is injective: two full topic strings
built from the same config prefix agree iff their suffixes do. -/
theorem app_cancel (p a b : String) : (p ++ a = p ++ b) ↔ a = b := by
  constructor
  · intro h
    have hd : (p ++ a).data = (p ++ b).data := by rw [h]
    simp only [String.data_append, List.append_cancel_left_eq] at hd
    exact String.ext hd
  · intro h
    rw [h]

theorem upSpeed_eq (pfx t d : String) (u : PartialData) :
    upSpeed pfx t d u =
      { u with speed := if t = pfx ++ "/speed" then some (parseFloat d).or0 else u.speed } := by
  unfold upSpeed; split <;> rename_i h <;> simp [h]

theorem upBatteryLevel_eq (pfx t d : String) (u : PartialData) :
    upBatteryLevel pfx t d u =
      { u with batteryLevel :=
          if t = pfx ++ "/battery_level" then some (parseInt d) else u.batteryLevel } := by
  unfold upBatteryLevel; split <;> rename_i h <;> simp [h]

theorem upPower_eq (pfx t d : String) (u : PartialData) :
    upPower pfx t d u =
      { u with power := if t = pfx ++ "/power" then some (parseFloat d) else u.power } := by
  unfold upPower; split <;> rename_i h <;> simp [h]

theorem upGear_eq (pfx t d : String) (u : PartialData) :
    upGear pfx t d u =
      { u with gear := if t = pfx ++ "/shift_state" then some d else u.gear } := by
  unfold upGear; split <;> rename_i h <;> simp [h]

theorem upRange_eq (pfx t d : String) (u : PartialData) :
    upRange pfx t d u =
      { u with range :=
          if t = pfx ++ "/ideal_battery_range_km" then some (parseFloat d) else u.range } := by
  unfold upRange; split <;> rename_i h <;> simp [h]

theorem upOutsideTemp_eq (pfx t d : String) (u : PartialData) :
    upOutsideTemp pfx t d u =
      { u with outsideTemp :=
          if t = pfx ++ "/outside_temp" then some (parseFloat d) else u.outsideTemp } := by
  unfold upOutsideTemp; split <;> rename_i h <;> simp [h]

theorem upInsideTemp_eq (pfx t d : String) (u : PartialData) :
    upInsideTemp pfx t d u =
      { u with insideTemp :=
          if t = pfx ++ "/inside_temp" then some (parseFloat d) else u.insideTemp } := by
  unfold upInsideTemp; split <;> rename_i h <;> simp [h]

theorem upOdometer_eq (pfx t d : String) (u : PartialData) :
    upOdometer pfx t d u =
      { u with odometer := if t = pfx ++ "/odometer" then some (parseFloat d) else u.odometer } := by
  unfold upOdometer; split <;> rename_i h <;> simp [h]

theorem upHeading_eq (pfx t d : String) (u : PartialData) :
    upHeading pfx t d u =
      { u with heading := if t = pfx ++ "/heading" then some (parseFloat d) else u.heading } := by
  unfold upHeading; split <;> rename_i h <;> simp [h]

theorem upElevation_eq (pfx t d : String) (u : PartialData) :
    upElevation pfx t d u =
      { u with elevation := if t = pfx ++ "/elevation" then some (parseFloat d) else u.elevation } := by
  unfold upElevation; split <;> rename_i h <;> simp [h]

theorem upGeofence_eq (pfx t d : String) (u : PartialData) :
    upGeofence pfx t d u =
      { u with geofence := if t = pfx ++ "/geofence" then some d else u.geofence } := by
  unfold upGeofence; split <;> rename_i h <;> simp [h]

theorem upState_eq (pfx t d : String) (u : PartialData) :
    upState pfx t d u =
      { u with state := if t = pfx ++ "/state" then some d else u.state,
               isCharging := if t = pfx ++ "/state" then some (d = "charging") else u.isCharging } := by
  unfold upState; split <;> rename_i h <;> simp [h]

theorem upLocked_eq (pfx t d : String) (u : PartialData) :
    upLocked pfx t d u =
      { u with isLocked := if t = pfx ++ "/locked" then some (d = "true") else u.isLocked } := by
  unfold upLocked; split <;> rename_i h <;> simp [h]

theorem upChargerPower_eq (pfx t d : String) (u : PartialData) :
    upChargerPower pfx t d u =
      { u with chargerPower :=
          if t = pfx ++ "/charger_power" then some (parseFloat d) else u.chargerPower } := by
  unfold upChargerPower; split <;> rename_i h <;> simp [h]

theorem upTimeToFullCharge_eq (pfx t d : String) (u : PartialData) :
    upTimeToFullCharge pfx t d u =
      { u with timeToFullCharge :=
          if t = pfx ++ "/time_to_full_charge" then some (parseFloat d) else u.timeToFullCharge } := by
  unfold upTimeToFullCharge; split <;> rename_i h <;> simp [h]

theorem upChargeLimitSoc_eq (pfx t d : String) (u : PartialData) :
    upChargeLimitSoc pfx t d u =
      { u with chargeLimitSoc :=
          if t = pfx ++ "/charge_limit_soc" then some (parseInt d) else u.chargeLimitSoc } := by
  unfold upChargeLimitSoc; split <;> rename_i h <;> simp [h]

theorem upDestination_eq (pfx t d : String) (u : PartialData) :
    upDestination pfx t d u =
      { u with destination := if t = pfx ++ "/destination" then some d else u.destination } := by
  unfold upDestination; split <;> rename_i h <;> simp [h]

theorem upEstArrivalTime_eq (pfx t d : String) (u : PartialData) :
    upEstArrivalTime pfx t d u =
      { u with estArrivalTime :=
          if t = pfx ++ "/est_arrival_time" then some (ETime.str d) else u.estArrivalTime } := by
  unfold upEstArrivalTime; split <;> rename_i h <;> simp [h]

theorem upTimeToArrival_eq (pfx t d : String) (u : PartialData) :
    upTimeToArrival pfx t d u =
      { u with timeToArrival :=
          if t = pfx ++ "/time_to_arrival" then some (parseFloat d) else u.timeToArrival } := by
  unfold upTimeToArrival; split <;> rename_i h <;> simp [h]

theorem upARDest_eq (pfx t d : String) (u : PartialData) :
    upARDest pfx t d u =
      { u with destination :=
          if t = pfx ++ "/active_route_destination" then some d else u.destination } := by
  unfold upARDest; split <;> rename_i h <;> simp [h]

theorem upARMins_eq (pfx t d : String) (now : ℚ) (u : PartialData) :
    upARMins pfx t d now u =
      { u with
        timeToArrival :=
          if t = pfx ++ "/active_route_minutes_to_arrival" then some (parseFloat d)
          else u.timeToArrival,
        estArrivalTime :=
          if t = pfx ++ "/active_route_minutes_to_arrival" then
            (if (parseFloat d).gtZero then
              some (.iso (now + (parseFloat d).toQ * 60000))
            else u.estArrivalTime)
          else u.estArrivalTime } := by
  unfold upARMins
  split <;> rename_i h <;> simp only [h, if_true, if_false, reduceIte]
  split <;> rename_i h2 <;> simp [h2]

theorem merge_emptyU (s : TeslaData) : merge s emptyU = s := rfl

theorem getD_comm {α : Type} (a b : Option α) (c : α) (h : a = none ∨ b = none) :
    b.getD (a.getD c) = a.getD (b.getD c) := by
  rcases h with h | h <;> simp [h]

theorem getD_absorb {α : Type} (a b : Option α) (c : α) (h : b = none → a = none) :
    b.getD (a.getD c) = b.getD c := by
  cases b with
  | none => simp [h rfl]
  | some v => rfl

/-- Two update objects supply disjoint key sets: for every field, at least
one of the two leaves it unassigned. -/
def UDisjoint (u v : PartialData) : Prop :=
  (u.speed = none ∨ v.speed = none) ∧
  (u.batteryLevel = none ∨ v.batteryLevel = none) ∧
  (u.power = none ∨ v.power = none) ∧
  (u.gear = none ∨ v.gear = none) ∧
  (u.range = none ∨ v.range = none) ∧
  (u.outsideTemp = none ∨ v.outsideTemp = none) ∧
  (u.insideTemp = none ∨ v.insideTemp = none) ∧
  (u.odometer = none ∨ v.odometer = none) ∧
  (u.state = none ∨ v.state = none) ∧
  (u.isLocked = none ∨ v.isLocked = none) ∧
  (u.isCharging = none ∨ v.isCharging = none) ∧
  (u.heading = none ∨ v.heading = none) ∧
  (u.elevation = none ∨ v.elevation = none) ∧
  (u.geofence = none ∨ v.geofence = none) ∧
  (u.tpms_front_left = none ∨ v.tpms_front_left = none) ∧
  (u.tpms_front_right = none ∨ v.tpms_front_right = none) ∧
  (u.tpms_rear_left = none ∨ v.tpms_rear_left = none) ∧
  (u.tpms_rear_right = none ∨ v.tpms_rear_right = none) ∧
  (u.chargerPower = none ∨ v.chargerPower = none) ∧
  (u.timeToFullCharge = none ∨ v.timeToFullCharge = none) ∧
  (u.chargeLimitSoc = none ∨ v.chargeLimitSoc = none) ∧
  (u.destination = none ∨ v.destination = none) ∧
  (u.estArrivalTime = none ∨ v.estArrivalTime = none) ∧
  (u.timeToArrival = none ∨ v.timeToArrival = none) ∧
  (u.activeRoute = none ∨ v.activeRoute = none)

/-- Merging two updates with disjoint key sets commutes. -/
theorem merge_merge_comm (s : TeslaData) {u v : PartialData} (h : UDisjoint u v) :
    merge (merge s u) v = merge (merge s v) u := by
  obtain ⟨h1, h2, h3, h4, h5, h6, h7, h8, h9, h10, h11, h12, h13, h14, h15,
    h16, h17, h18, h19, h20, h21, h22, h23, h24, h25⟩ := h
  simp only [merge, TeslaData.mk.injEq]
  exact ⟨getD_comm _ _ _ h1, getD_comm _ _ _ h2, getD_comm _ _ _ h3,
    getD_comm _ _ _ h4, getD_comm _ _ _ h5, getD_comm _ _ _ h6,
    getD_comm _ _ _ h7, getD_comm _ _ _ h8, getD_comm _ _ _ h9,
    getD_comm _ _ _ h10, getD_comm _ _ _ h11, getD_comm _ _ _ h12,
    getD_comm _ _ _ h13, getD_comm _ _ _ h14, getD_comm _ _ _ h15,
    getD_comm _ _ _ h16, getD_comm _ _ _ h17, getD_comm _ _ _ h18,
    getD_comm _ _ _ h19, getD_comm _ _ _ h20, getD_comm _ _ _ h21,
    getD_comm _ _ _ h22, getD_comm _ _ _ h23, getD_comm _ _ _ h24,
    getD_comm _ _ _ h25⟩

/-- Every key assigned by `u` is also assigned by `v` (contrapositive form):
merging `u` first and `v` second makes the `u` merge irrelevant. -/
def USub (u v : PartialData) : Prop :=
  (v.speed = none → u.speed = none) ∧
  (v.batteryLevel = none → u.batteryLevel = none) ∧
  (v.power = none → u.power = none) ∧
  (v.gear = none → u.gear = none) ∧
  (v.range = none → u.range = none) ∧
  (v.outsideTemp = none → u.outsideTemp = none) ∧
  (v.insideTemp = none → u.insideTemp = none) ∧
  (v.odometer = none → u.odometer = none) ∧
  (v.state = none → u.state = none) ∧
  (v.isLocked = none → u.isLocked = none) ∧
  (v.isCharging = none → u.isCharging = none) ∧
  (v.heading = none → u.heading = none) ∧
  (v.elevation = none → u.elevation = none) ∧
  (v.geofence = none → u.geofence = none) ∧
  (v.tpms_front_left = none → u.tpms_front_left = none) ∧
  (v.tpms_front_right = none → u.tpms_front_right = none) ∧
  (v.tpms_rear_left = none → u.tpms_rear_left = none) ∧
  (v.tpms_rear_right = none → u.tpms_rear_right = none) ∧
  (v.chargerPower = none → u.chargerPower = none) ∧
  (v.timeToFullCharge = none → u.timeToFullCharge = none) ∧
  (v.chargeLimitSoc = none → u.chargeLimitSoc = none) ∧
  (v.destination = none → u.destination = none) ∧
  (v.estArrivalTime = none → u.estArrivalTime = none) ∧
  (v.timeToArrival = none → u.timeToArrival = none) ∧
  (v.activeRoute = none → u.activeRoute = none)

/-- A later update that assigns at least the keys of an earlier one makes the
earlier merge irrelevant (last-write-wins absorption). -/
theorem merge_merge_absorb (s : TeslaData) {u v : PartialData} (h : USub u v) :
    merge (merge s u) v = merge s v := by
  obtain ⟨h1, h2, h3, h4, h5, h6, h7, h8, h9, h10, h11, h12, h13, h14, h15,
    h16, h17, h18, h19, h20, h21, h22, h23, h24, h25⟩ := h
  simp only [merge, TeslaData.mk.injEq]
  exact ⟨getD_absorb _ _ _ h1, getD_absorb _ _ _ h2, getD_absorb _ _ _ h3,
    getD_absorb _ _ _ h4, getD_absorb _ _ _ h5, getD_absorb _ _ _ h6,
    getD_absorb _ _ _ h7, getD_absorb _ _ _ h8, getD_absorb _ _ _ h9,
    getD_absorb _ _ _ h10, getD_absorb _ _ _ h11, getD_absorb _ _ _ h12,
    getD_absorb _ _ _ h13, getD_absorb _ _ _ h14, getD_absorb _ _ _ h15,
    getD_absorb _ _ _ h16, getD_absorb _ _ _ h17, getD_absorb _ _ _ h18,
    getD_absorb _ _ _ h19, getD_absorb _ _ _ h20, getD_absorb _ _ _ h21,
    getD_absorb _ _ _ h22, getD_absorb _ _ _ h23, getD_absorb _ _ _ h24,
    getD_absorb _ _ _ h25⟩

/-- On a topic outside the navigation families, the reducer's update object
has a closed per-field form: each non-navigation field is assigned exactly
when the topic is its unique setter, and all four navigation fields are left
unassigned. -/
theorem mkUpdates_nonNav (parse : String → Except Unit Route)
    (pfx t d : String) (now : ℚ) (h : t ∉ navTopics pfx) :
    mkUpdates parse pfx t d now =
      { speed := if t = pfx ++ "/speed" then some (parseFloat d).or0 else none,
        batteryLevel := if t = pfx ++ "/battery_level" then some (parseInt d) else none,
        power := if t = pfx ++ "/power" then some (parseFloat d) else none,
        gear := if t = pfx ++ "/shift_state" then some d else none,
        range := if t = pfx ++ "/ideal_battery_range_km" then some (parseFloat d) else none,
        outsideTemp := if t = pfx ++ "/outside_temp" then some (parseFloat d) else none,
        insideTemp := if t = pfx ++ "/inside_temp" then some (parseFloat d) else none,
        odometer := if t = pfx ++ "/odometer" then some (parseFloat d) else none,
        state := if t = pfx ++ "/state" then some d else none,
        isLocked := if t = pfx ++ "/locked" then some (d = "true") else none,
        isCharging := if t = pfx ++ "/state" then some (d = "charging") else none,
        heading := if t = pfx ++ "/heading" then some (parseFloat d) else none,
        elevation := if t = pfx ++ "/elevation" then some (parseFloat d) else none,
        geofence := if t = pfx ++ "/geofence" then some d else none,
        chargerPower := if t = pfx ++ "/charger_power" then some (parseFloat d) else none,
        timeToFullCharge := if t = pfx ++ "/time_to_full_charge" then some (parseFloat d) else none,
        chargeLimitSoc := if t = pfx ++ "/charge_limit_soc" then some (parseInt d) else none } := by
  simp only [navTopics, List.mem_cons, List.mem_singleton, not_or] at h
  obtain ⟨n1, n2, n3, n4, n5, n6⟩ := h
  simp [mkUpdates, upSpeed_eq, upBatteryLevel_eq, upPower_eq, upGear_eq,
    upRange_eq, upOutsideTemp_eq, upInsideTemp_eq, upOdometer_eq,
    upHeading_eq, upElevation_eq, upGeofence_eq, upState_eq, upLocked_eq,
    upChargerPower_eq, upTimeToFullCharge_eq, upChargeLimitSoc_eq,
    upDestination_eq, upEstArrivalTime_eq, upTimeToArrival_eq, upARDest_eq,
    upARMins_eq, upAR, emptyU, n1, n2, n3, n4, n5, n6]

/-- Merge-only form of one reducer step at a fixed reference time. -/
def stepM (parse : String → Except Unit Route) (pfx : String) (s : TeslaData)
    (m : Msg) : TeslaData :=
  merge s (mkUpdates parse pfx m.topic m.data 0)

/-- Merge-only form of a reducer run. -/
def runM (parse : String → Except Unit Route) (pfx : String) (s : TeslaData)
    (ms : List Msg) : TeslaData :=
  ms.foldl (stepM parse pfx) s

/-- The non-emptiness guard before `onDataUpdate` never changes the merged
state: skipping an empty update equals merging it. -/
theorem step_eq_merge (parse : String → Except Unit Route) (pfx : String)
    (s : TeslaData) (m : Msg) (now : ℚ) :
    step parse pfx s m now = merge s (mkUpdates parse pfx m.topic m.data now) := by
  by_cases h : mkUpdates parse pfx m.topic m.data now = emptyU
  · simp [step, h, merge_emptyU]
  · simp [step, h]

/-- Outside the navigation topics the update object depends neither on the
wall clock nor on the JSON parser. -/
theorem mkUpdates_nonNav_congr (parse1 parse2 : String → Except Unit Route)
    (pfx t d : String) (n1 n2 : ℚ) (h : t ∉ navTopics pfx) :
    mkUpdates parse1 pfx t d n1 = mkUpdates parse2 pfx t d n2 := by
  rw [mkUpdates_nonNav parse1 pfx t d n1 h, mkUpdates_nonNav parse2 pfx t d n2 h]

/-- On non-navigation topics a timed run reduces to the merge-only run. -/
theorem run_eq_runM (parse : String → Except Unit Route) (pfx : String)
    (l : List (Msg × ℚ)) (hnav : ∀ p ∈ l, p.1.topic ∉ navTopics pfx)
    (s : TeslaData) :
    run parse pfx s l = runM parse pfx s (l.map Prod.fst) := by
  induction l generalizing s with
  | nil => rfl
  | cons p rest ih =>
    have hp : p.1.topic ∉ navTopics pfx := hnav p (List.mem_cons_self p rest)
    have hrest : ∀ q ∈ rest, q.1.topic ∉ navTopics pfx :=
      fun q hq => hnav q (List.mem_cons_of_mem p hq)
    show run parse pfx (step parse pfx s p.1 p.2) rest =
      runM parse pfx (stepM parse pfx s p.1) (rest.map Prod.fst)
    rw [ih hrest, step_eq_merge, mkUpdates_nonNav_congr parse parse pfx _ _ p.2 0 hp]
    rfl

theorem disj_of_ne {α : Type} {t1 t2 X : String} (hne : t1 ≠ t2) (x y : α) :
    (if t1 = X then some x else none) = none ∨
      (if t2 = X then some y else none) = none := by
  by_cases h : t1 = X
  · right
    rw [if_neg]
    intro hc
    exact hne (h.trans hc.symm)
  · left
    exact if_neg h

/-- Updates computed for two distinct non-navigation topics assign disjoint
key sets: every non-navigation field has a unique setter topic, and the
shared navigation fields are not assigned at all. -/
theorem mkUpdates_disjoint (parse1 parse2 : String → Except Unit Route)
    (pfx t1 t2 d1 d2 : String) (n1 n2 : ℚ) (hne : t1 ≠ t2)
    (h1 : t1 ∉ navTopics pfx) (h2 : t2 ∉ navTopics pfx) :
    UDisjoint (mkUpdates parse1 pfx t1 d1 n1) (mkUpdates parse2 pfx t2 d2 n2) := by
  rw [mkUpdates_nonNav parse1 pfx t1 d1 n1 h1, mkUpdates_nonNav parse2 pfx t2 d2 n2 h2]
  exact ⟨disj_of_ne hne _ _, disj_of_ne hne _ _, disj_of_ne hne _ _,
    disj_of_ne hne _ _, disj_of_ne hne _ _, disj_of_ne hne _ _,
    disj_of_ne hne _ _, disj_of_ne hne _ _, disj_of_ne hne _ _,
    disj_of_ne hne _ _, disj_of_ne hne _ _, disj_of_ne hne _ _,
    disj_of_ne hne _ _, disj_of_ne hne _ _, Or.inl rfl, Or.inl rfl,
    Or.inl rfl, Or.inl rfl, disj_of_ne hne _ _, disj_of_ne hne _ _,
    disj_of_ne hne _ _, Or.inl rfl, Or.inl rfl, Or.inl rfl, Or.inl rfl⟩

theorem ite_none_same {α : Type} {c : Prop} [Decidable c] (x y : α)
    (h : (if c then some y else none) = none) :
    (if c then some x else none) = none := by
  by_cases hc : c
  · rw [if_pos hc] at h
    exact absurd h (by simp)
  · exact if_neg hc

/-- For a fixed non-navigation topic the set of assigned keys does not
depend on the payload: a later update for the same topic assigns every key
an earlier one did. -/
theorem mkUpdates_sub (parse1 parse2 : String → Except Unit Route)
    (pfx t d1 d2 : String) (n1 n2 : ℚ) (h : t ∉ navTopics pfx) :
    USub (mkUpdates parse1 pfx t d1 n1) (mkUpdates parse2 pfx t d2 n2) := by
  rw [mkUpdates_nonNav parse1 pfx t d1 n1 h, mkUpdates_nonNav parse2 pfx t d2 n2 h]
  exact ⟨ite_none_same _ _, ite_none_same _ _, ite_none_same _ _,
    ite_none_same _ _, ite_none_same _ _, ite_none_same _ _,
    ite_none_same _ _, ite_none_same _ _, ite_none_same _ _,
    ite_none_same _ _, ite_none_same _ _, ite_none_same _ _,
    ite_none_same _ _, ite_none_same _ _, fun _ => rfl, fun _ => rfl,
    fun _ => rfl, fun _ => rfl, ite_none_same _ _, ite_none_same _ _,
    ite_none_same _ _, fun _ => rfl, fun _ => rfl, fun _ => rfl, fun _ => rfl⟩

/-- Reducer steps for distinct non-navigation topics commute. -/
theorem stepM_comm (parse : String → Except Unit Route) (pfx : String)
    {m1 m2 : Msg} (hne : m1.topic ≠ m2.topic)
    (h1 : m1.topic ∉ navTopics pfx) (h2 : m2.topic ∉ navTopics pfx)
    (s : TeslaData) :
    stepM parse pfx (stepM parse pfx s m1) m2 =
      stepM parse pfx (stepM parse pfx s m2) m1 :=
  merge_merge_comm s (mkUpdates_disjoint parse parse pfx _ _ _ _ _ _ hne h1 h2)

/-- A later reducer step for the same non-navigation topic absorbs an
earlier one (last write wins). -/
theorem stepM_absorb (parse : String → Except Unit Route) (pfx : String)
    {m1 m2 : Msg} (heq : m1.topic = m2.topic) (h : m2.topic ∉ navTopics pfx)
    (s : TeslaData) :
    stepM parse pfx (stepM parse pfx s m1) m2 = stepM parse pfx s m2 := by
  unfold stepM
  exact merge_merge_absorb s (heq ▸ mkUpdates_sub parse parse pfx _ _ _ _ _ (heq ▸ h))

/-- Merge-only runs over lists of pairwise-distinct non-navigation topics
are invariant under permutation of the message list. -/
theorem runM_perm (parse : String → Except Unit Route) (pfx : String)
    {l1 l2 : List Msg} (hperm : l1.Perm l2)
    (hnodup : (l1.map Msg.topic).Nodup)
    (hnav : ∀ m ∈ l1, m.topic ∉ navTopics pfx) (s : TeslaData) :
    runM parse pfx s l1 = runM parse pfx s l2 := by
  unfold runM
  refine hperm.foldl_eq' (fun x hx y hy z => ?_) s
  by_cases hxy : x.topic = y.topic
  · have : x = y := List.inj_on_of_nodup_map hnodup hx hy hxy
    rw [this]
  · exact stepM_comm parse pfx hxy (hnav x hx) (hnav y hy) z

/-- A step for a topic absent from a list of non-navigation messages can be
pulled past the whole list. -/
theorem runM_pull (parse : String → Except Unit Route) (pfx : String)
    {C : List Msg} {m : Msg} (hne : ∀ e ∈ C, e.topic ≠ m.topic)
    (hnavC : ∀ e ∈ C, e.topic ∉ navTopics pfx)
    (hm : m.topic ∉ navTopics pfx) (s : TeslaData) :
    runM parse pfx (stepM parse pfx s m) C =
      stepM parse pfx (runM parse pfx s C) m := by
  induction C generalizing s with
  | nil => rfl
  | cons c C' ih =>
    have hc : c.topic ≠ m.topic := hne c (List.mem_cons_self c C')
    have hnc : c.topic ∉ navTopics pfx := hnavC c (List.mem_cons_self c C')
    show runM parse pfx (stepM parse pfx (stepM parse pfx s m) c) C' = _
    rw [stepM_comm parse pfx (fun h => hc h.symm) hm hnc s,
      ih (fun e he => hne e (List.mem_cons_of_mem c he))
        (fun e he => hnavC e (List.mem_cons_of_mem c he))]
    rfl

/-- The Topic Cache write `topicCache.set(topic, dataString)` from
`src/server.js` (line 55), on the JS `Map` modelled as a list of entries in
insertion order: an existing entry for the topic is overwritten in place,
otherwise the entry is appended. -/
def cacheUpdate (c : List Msg) (m : Msg) : List Msg :=
  if c.any (fun e => e.topic = m.topic) then
    c.map (fun e => if e.topic = m.topic then m else e)
  else c ++ [m]

/-- Contents of the Topic Cache after a sequence of broker messages
(`src/server.js`, `mqttClient.on('message')`). -/
def cacheOf (l : List (Msg × ℚ)) : List Msg :=
  l.foldl (fun c p => cacheUpdate c p.1) []

theorem cacheUpdate_mem {c : List Msg} {m e : Msg} (h : e ∈ cacheUpdate c m) :
    e ∈ c ∨ e = m := by
  unfold cacheUpdate at h
  split at h
  · obtain ⟨a, ha, hrep⟩ := List.mem_map.1 h
    by_cases hat : a.topic = m.topic
    · rw [if_pos hat] at hrep
      exact Or.inr hrep.symm
    · rw [if_neg hat] at hrep
      exact Or.inl (hrep ▸ ha)
  · rcases List.mem_append.1 h with h' | h'
    · exact Or.inl h'
    · exact Or.inr (List.mem_singleton.1 h')

theorem cacheUpdate_nodup {c : List Msg} {m : Msg}
    (h : (c.map Msg.topic).Nodup) :
    ((cacheUpdate c m).map Msg.topic).Nodup := by
  unfold cacheUpdate
  split
  · have : (c.map (fun e => if e.topic = m.topic then m else e)).map Msg.topic
        = c.map Msg.topic := by
      rw [List.map_map]
      refine List.map_congr_left (fun e _ => ?_)
      by_cases he : e.topic = m.topic
      · simp [he]
      · simp [he]
    rw [this]
    exact h
  · rename_i hany
    rw [List.map_append]
    simp only [List.map_cons, List.map_nil]
    rw [List.nodup_append]
    refine ⟨h, List.nodup_singleton _, ?_⟩
    intro x hx
    simp only [List.mem_singleton]
    intro hxm
    apply hany
    obtain ⟨a, ha, hat⟩ := List.mem_map.1 hx
    exact List.any_eq_true.2 ⟨a, ha, by simp [hat, hxm]⟩

theorem cacheOf_append (l : List (Msg × ℚ)) (p : Msg × ℚ) :
    cacheOf (l ++ [p]) = cacheUpdate (cacheOf l) p.1 := by
  simp [cacheOf, List.foldl_append]

theorem cacheOf_nodup (l : List (Msg × ℚ)) :
    ((cacheOf l).map Msg.topic).Nodup := by
  induction l using List.reverseRecOn with
  | nil => simp [cacheOf]
  | append_singleton l' p ih =>
    rw [cacheOf_append]
    exact cacheUpdate_nodup ih

theorem cacheOf_mem {l : List (Msg × ℚ)} {e : Msg} (h : e ∈ cacheOf l) :
    ∃ p ∈ l, e = p.1 := by
  induction l using List.reverseRecOn with
  | nil => simp [cacheOf] at h
  | append_singleton l' p ih =>
    rw [cacheOf_append] at h
    rcases cacheUpdate_mem h with h' | h'
    · obtain ⟨q, hq, he⟩ := ih h'
      exact ⟨q, List.mem_append.2 (Or.inl hq), he⟩
    · exact ⟨p, List.mem_append.2 (Or.inr (List.mem_singleton.2 rfl)), h'⟩

/-- Replacing the unique cache entry for a topic by a newer message and
replaying is the same as replaying the old cache and then applying the new
message (non-navigation topics). -/
theorem runM_replace (parse : String → Except Unit Route) (pfx : String)
    {C : List Msg} {m : Msg} (hmem : m.topic ∈ C.map Msg.topic)
    (hnodup : (C.map Msg.topic).Nodup)
    (hnavC : ∀ e ∈ C, e.topic ∉ navTopics pfx)
    (hm : m.topic ∉ navTopics pfx) (s : TeslaData) :
    runM parse pfx s (C.map (fun e => if e.topic = m.topic then m else e)) =
      stepM parse pfx (runM parse pfx s C) m := by
  induction C generalizing s with
  | nil => simp at hmem
  | cons c C' ih =>
    have hnc : c.topic ∉ navTopics pfx := hnavC c (List.mem_cons_self c C')
    have hnavC' : ∀ e ∈ C', e.topic ∉ navTopics pfx :=
      fun e he => hnavC e (List.mem_cons_of_mem c he)
    have hnodup' : (C'.map Msg.topic).Nodup := (List.nodup_cons.1 hnodup).2
    by_cases hct : c.topic = m.topic
    · have hC'ne : ∀ e ∈ C', e.topic ≠ m.topic := by
        intro e he
        have hnotin : c.topic ∉ C'.map Msg.topic := (List.nodup_cons.1 hnodup).1
        rw [hct] at hnotin
        exact fun hh => hnotin (hh ▸ List.mem_map_of_mem Msg.topic he)
      have hid : C'.map (fun e => if e.topic = m.topic then m else e) = C' := by
        refine List.map_congr_left (fun e he => if_neg (hC'ne e he)) |>.trans C'.map_id
      simp only [List.map_cons, if_pos hct, hid]
      show runM parse pfx (stepM parse pfx s m) C' = _
      rw [runM_pull parse pfx hC'ne hnavC' hm s]
      show _ = stepM parse pfx (runM parse pfx (stepM parse pfx s c) C') m
      have hC'nec : ∀ e ∈ C', e.topic ≠ c.topic := fun e he => hct ▸ hC'ne e he
      rw [runM_pull parse pfx hC'nec hnavC' hnc s]
      rw [stepM_absorb parse pfx hct hm]
    · have hmem' : m.topic ∈ C'.map Msg.topic := by
        have hd : m.topic = c.topic ∨ ∃ a ∈ C', a.topic = m.topic := by
          simpa using hmem
        rcases hd with h' | ⟨a, ha, hat⟩
        · exact absurd h'.symm hct
        · exact List.mem_map.2 ⟨a, ha, hat⟩
      simp only [List.map_cons, if_neg hct]
      show runM parse pfx (stepM parse pfx s c) _ = _
      rw [ih hmem' hnodup' hnavC' (stepM parse pfx s c)]
      rfl

/-- One cache write followed by a replay equals a replay of the old cache
followed by the new message (non-navigation topics). -/
theorem runM_cacheUpdate (parse : String → Except Unit Route) (pfx : String)
    {C : List Msg} {m : Msg} (hnodup : (C.map Msg.topic).Nodup)
    (hnavC : ∀ e ∈ C, e.topic ∉ navTopics pfx)
    (hm : m.topic ∉ navTopics pfx) (s : TeslaData) :
    runM parse pfx s (cacheUpdate C m) =
      stepM parse pfx (runM parse pfx s C) m := by
  unfold cacheUpdate
  split
  · rename_i hany
    obtain ⟨e, he, het⟩ := List.any_eq_true.1 hany
    have hemt : e.topic = m.topic := by simpa using het
    have hmt : m.topic ∈ C.map Msg.topic :=
      hemt ▸ List.mem_map_of_mem Msg.topic he
    exact runM_replace parse pfx hmt hnodup hnavC hm s
  · unfold runM
    rw [List.foldl_append]
    rfl

/-- Replaying the Topic Cache left by a sequence of non-navigation broker
messages reproduces exactly the state of a client that merged the whole
live sequence in order. -/
theorem cache_replay (parse : String → Except Unit Route) (pfx : String)
    (msgs : List (Msg × ℚ)) (hnav : ∀ p ∈ msgs, p.1.topic ∉ navTopics pfx)
    (s : TeslaData) :
    runM parse pfx s (cacheOf msgs) = run parse pfx s msgs := by
  induction msgs using List.reverseRecOn with
  | nil => rfl
  | append_singleton l p ih =>
    have hnavl : ∀ q ∈ l, q.1.topic ∉ navTopics pfx :=
      fun q hq => hnav q (List.mem_append.2 (Or.inl hq))
    have hp : p.1.topic ∉ navTopics pfx :=
      hnav p (List.mem_append.2 (Or.inr (List.mem_singleton.2 rfl)))
    have hnavC : ∀ e ∈ cacheOf l, e.topic ∉ navTopics pfx := by
      intro e he
      obtain ⟨q, hq, heq⟩ := cacheOf_mem he
      exact heq ▸ hnavl q hq
    rw [cacheOf_append,
      runM_cacheUpdate parse pfx (cacheOf_nodup l) hnavC hp s, ih hnavl]
    unfold run
    rw [List.foldl_append]
    simp only [List.foldl_cons, List.foldl_nil]
    rw [step_eq_merge, mkUpdates_nonNav_congr parse parse pfx _ _ p.2 0 hp]
    rfl

/-- State of one `MqttService` instance together with its environment's
event queue, as far as reconnection is concerned (`src/services/mqttService.ts`):
`wsSet` models `this.ws !== null`; `pendingTimers` counts reconnect callbacks
scheduled by `ws.onclose` (line 285, `setTimeout(() => this.connect(config), 5000)`)
that have not yet fired — the source stores no handle to them;
`connectCalls` counts invocations of `connect`; `disconnectCalled` records
that `disconnect` (lines 297–304) has run. -/
structure LinkState where
  wsSet : Bool
  pendingTimers : ℕ
  connectCalls : ℕ
  disconnectCalled : Bool
deriving DecidableEq, Repr

/-- Events driving the Link Manager: a socket created by the service fires
its `onclose` handler; a pending reconnect timer fires; the owner calls
`disconnect()`. -/
inductive LinkEvent where
  | socketClose : LinkEvent
  | timerFire : LinkEvent
  | disconnectCall : LinkEvent
deriving DecidableEq, Repr

/-- Transition function read off the handlers in `mqttService.ts`:
`onclose` schedules a reconnect timer (it stores no cancel handle);
a firing timer runs `this.connect(config)`, which constructs a new
`WebSocket`; `disconnect()` closes the socket and sets `this.ws = null`
but does not touch any timer — there is no `clearTimeout` in the source. -/
def stepLink (s : LinkState) (e : LinkEvent) : LinkState :=
  match e with
  | .socketClose => { s with pendingTimers := s.pendingTimers + 1 }
  | .timerFire =>
    if 0 < s.pendingTimers then
      { s with pendingTimers := s.pendingTimers - 1,
               connectCalls := s.connectCalls + 1, wsSet := true }
    else s
  | .disconnectCall => { s with wsSet := false, disconnectCalled := true }

def runLink (s : LinkState) (es : List LinkEvent) : LinkState :=
  es.foldl stepLink s

/-- A connected Link Manager: one successful `connect()` call, no pending
timer. -/
def linkConnected : LinkState where
  wsSet := true
  pendingTimers := 0
  connectCalls := 1
  disconnectCalled := false

/-- The scenario of the claim: the socket closes (scheduling the 5 s
reconnect), then `disconnect()` is called, then the timer fires. -/
def c5Events : List LinkEvent := [.socketClose, .disconnectCall, .timerFire]

/-- C5 (code_bug evaluation): after a socket close followed by
`disconnect()`, the reconnect timer scheduled by `onclose` still fires and
runs `connect()` again — the teardown does not clear the pending timer, so
a further connection attempt is made by the instance after `disconnect()`. -/
theorem c5_reconnect_fires_after_disconnect :
    (runLink linkConnected c5Events).disconnectCalled = true ∧
    (runLink linkConnected c5Events).connectCalls = 2 ∧
    (runLink linkConnected c5Events).wsSet = true := by
  decide

/-- C4: feeding the exact same message sequence, in the same order and with
the same processing times, into two fresh State Reducers — each starting
from the zeroed `INITIAL_DATA` record — yields the same final vehicle-state
record: the reducer is a pure function of its inputs. -/
theorem c4_deterministic_replay (parse : String → Except Unit Route)
    (pfx : String) (msgs : List (Msg × ℚ)) (s1 s2 : TeslaData)
    (h1 : s1 = initialData) (h2 : s2 = initialData) :
    run parse pfx s1 msgs = run parse pfx s2 msgs := by
  rw [h1, h2]

/-- A JSON parser stub that always reports a syntax error; used to
instantiate reducer theorems on topics that never invoke the parser. -/
def parseFail : String → Except Unit Route := fun _ => .error ()

/-- The concrete topic prefix `teslamate/cars/1` of the default
configuration. -/
def cPfx : String := "teslamate/cars/1"

theorem c4_deterministic_replay_witness :
    run parseFail cPfx initialData [(⟨cPfx ++ "/speed", "5"⟩, 0)] =
      run parseFail cPfx initialData [(⟨cPfx ++ "/speed", "5"⟩, 0)] :=
  c4_deterministic_replay parseFail cPfx [(⟨cPfx ++ "/speed", "5"⟩, 0)]
    initialData initialData rfl rfl

theorem speed_not_nav (pfx : String) : pfx ++ "/speed" ∉ navTopics pfx := by
  simp [navTopics, app_cancel]

/-- C7: whenever the payload on the speed topic does not parse as a number
(`parseFloat` yields NaN), the `parseFloat(data) || 0` fallback makes the
update set the speed field to `0`, and the merged record's speed is `0`. -/
theorem c7_nonnumeric_speed_zero (parse : String → Except Unit Route)
    (pfx d : String) (now : ℚ) (s : TeslaData) (h : parseFloat d = .nan) :
    (mkUpdates parse pfx (pfx ++ "/speed") d now).speed = some (.val 0) ∧
    (step parse pfx s ⟨pfx ++ "/speed", d⟩ now).speed = .val 0 := by
  have hu : (mkUpdates parse pfx (pfx ++ "/speed") d now).speed = some (.val 0) := by
    rw [mkUpdates_nonNav parse pfx _ d now (speed_not_nav pfx)]
    simp [h, JsNum.or0]
  refine ⟨hu, ?_⟩
  rw [step_eq_merge]
  show (mkUpdates parse pfx (pfx ++ "/speed") d now).speed.getD s.speed = _
  rw [hu]
  rfl

theorem c7_nonnumeric_speed_zero_witness :
    (step parseFail cPfx initialData ⟨cPfx ++ "/speed", "xyz"⟩ 0).speed = .val 0 :=
  (c7_nonnumeric_speed_zero parseFail cPfx "xyz" 0 initialData (by decide)).2

/-- C8: a topic outside the fixed dispatch table produces the empty update
object, the non-emptiness guard fails so `onDataUpdate` is not invoked, and
the merged vehicle-state record is left exactly unchanged. -/
theorem c8_unknown_topic_ignored (parse : String → Except Unit Route)
    (pfx t d : String) (now : ℚ) (s : TeslaData) (h : t ∉ knownTopics pfx) :
    mkUpdates parse pfx t d now = emptyU ∧
    emitted parse pfx t d now = false ∧
    step parse pfx s ⟨t, d⟩ now = s := by
  simp only [knownTopics, List.mem_cons, List.not_mem_nil, or_false, not_or] at h
  obtain ⟨k1, k2, k3, k4, k5, k6, k7, k8, k9, k10, k11, k12, k13, k14, k15,
    k16, k17, k18, k19, k20, k21, k22⟩ := h
  have hemp : mkUpdates parse pfx t d now = emptyU := by
    simp [mkUpdates, upSpeed, upBatteryLevel, upPower, upGear, upRange,
      upOutsideTemp, upInsideTemp, upOdometer, upHeading, upElevation,
      upGeofence, upState, upLocked, upChargerPower, upTimeToFullCharge,
      upChargeLimitSoc, upDestination, upEstArrivalTime, upTimeToArrival,
      upARDest, upARMins, upAR, k1, k2, k3, k4, k5, k6, k7, k8, k9, k10,
      k11, k12, k13, k14, k15, k16, k17, k18, k19, k20, k21, k22]
  refine ⟨hemp, ?_, ?_⟩
  · simp [emitted, hemp]
  · simp [step, hemp]

theorem c8_unknown_topic_ignored_witness :
    mkUpdates parseFail cPfx (cPfx ++ "/tpms_pressure_fl") "2.9" 0 = emptyU ∧
    emitted parseFail cPfx (cPfx ++ "/tpms_pressure_fl") "2.9" 0 = false ∧
    step parseFail cPfx initialData ⟨cPfx ++ "/tpms_pressure_fl", "2.9"⟩ 0 = initialData :=
  c8_unknown_topic_ignored parseFail cPfx (cPfx ++ "/tpms_pressure_fl") "2.9" 0
    initialData (by decide)

theorem getD_frame {α : Type} (a : Option α) (c : α) :
    (a = none → a.getD c = c) ∧ ∀ v, a = some v → a.getD c = v :=
  ⟨fun h => by simp [h], fun v h => by simp [h]⟩

/-- C9: the merge step is a partial update — for every field of the
vehicle-state record, an update that does not supply the field leaves the
prior value exactly unchanged, and an update that supplies it installs
exactly the supplied value. -/
theorem c9_merge_is_partial_update (s : TeslaData) (u : PartialData) :
    ((u.speed = none → (merge s u).speed = s.speed) ∧
      ∀ v, u.speed = some v → (merge s u).speed = v) ∧
    ((u.batteryLevel = none → (merge s u).batteryLevel = s.batteryLevel) ∧
      ∀ v, u.batteryLevel = some v → (merge s u).batteryLevel = v) ∧
    ((u.power = none → (merge s u).power = s.power) ∧
      ∀ v, u.power = some v → (merge s u).power = v) ∧
    ((u.gear = none → (merge s u).gear = s.gear) ∧
      ∀ v, u.gear = some v → (merge s u).gear = v) ∧
    ((u.range = none → (merge s u).range = s.range) ∧
      ∀ v, u.range = some v → (merge s u).range = v) ∧
    ((u.outsideTemp = none → (merge s u).outsideTemp = s.outsideTemp) ∧
      ∀ v, u.outsideTemp = some v → (merge s u).outsideTemp = v) ∧
    ((u.insideTemp = none → (merge s u).insideTemp = s.insideTemp) ∧
      ∀ v, u.insideTemp = some v → (merge s u).insideTemp = v) ∧
    ((u.odometer = none → (merge s u).odometer = s.odometer) ∧
      ∀ v, u.odometer = some v → (merge s u).odometer = v) ∧
    ((u.state = none → (merge s u).state = s.state) ∧
      ∀ v, u.state = some v → (merge s u).state = v) ∧
    ((u.isLocked = none → (merge s u).isLocked = s.isLocked) ∧
      ∀ v, u.isLocked = some v → (merge s u).isLocked = v) ∧
    ((u.isCharging = none → (merge s u).isCharging = s.isCharging) ∧
      ∀ v, u.isCharging = some v → (merge s u).isCharging = v) ∧
    ((u.heading = none → (merge s u).heading = s.heading) ∧
      ∀ v, u.heading = some v → (merge s u).heading = v) ∧
    ((u.elevation = none → (merge s u).elevation = s.elevation) ∧
      ∀ v, u.elevation = some v → (merge s u).elevation = v) ∧
    ((u.geofence = none → (merge s u).geofence = s.geofence) ∧
      ∀ v, u.geofence = some v → (merge s u).geofence = v) ∧
    ((u.tpms_front_left = none → (merge s u).tpms_front_left = s.tpms_front_left) ∧
      ∀ v, u.tpms_front_left = some v → (merge s u).tpms_front_left = v) ∧
    ((u.tpms_front_right = none → (merge s u).tpms_front_right = s.tpms_front_right) ∧
      ∀ v, u.tpms_front_right = some v → (merge s u).tpms_front_right = v) ∧
    ((u.tpms_rear_left = none → (merge s u).tpms_rear_left = s.tpms_rear_left) ∧
      ∀ v, u.tpms_rear_left = some v → (merge s u).tpms_rear_left = v) ∧
    ((u.tpms_rear_right = none → (merge s u).tpms_rear_right = s.tpms_rear_right) ∧
      ∀ v, u.tpms_rear_right = some v → (merge s u).tpms_rear_right = v) ∧
    ((u.chargerPower = none → (merge s u).chargerPower = s.chargerPower) ∧
      ∀ v, u.chargerPower = some v → (merge s u).chargerPower = v) ∧
    ((u.timeToFullCharge = none → (merge s u).timeToFullCharge = s.timeToFullCharge) ∧
      ∀ v, u.timeToFullCharge = some v → (merge s u).timeToFullCharge = v) ∧
    ((u.chargeLimitSoc = none → (merge s u).chargeLimitSoc = s.chargeLimitSoc) ∧
      ∀ v, u.chargeLimitSoc = some v → (merge s u).chargeLimitSoc = v) ∧
    ((u.destination = none → (merge s u).destination = s.destination) ∧
      ∀ v, u.destination = some v → (merge s u).destination = v) ∧
    ((u.estArrivalTime = none → (merge s u).estArrivalTime = s.estArrivalTime) ∧
      ∀ v, u.estArrivalTime = some v → (merge s u).estArrivalTime = v) ∧
    ((u.timeToArrival = none → (merge s u).timeToArrival = s.timeToArrival) ∧
      ∀ v, u.timeToArrival = some v → (merge s u).timeToArrival = v) ∧
    ((u.activeRoute = none → (merge s u).activeRoute = s.activeRoute) ∧
      ∀ v, u.activeRoute = some v → (merge s u).activeRoute = v) :=
  ⟨getD_frame _ _, getD_frame _ _, getD_frame _ _, getD_frame _ _,
   getD_frame _ _, getD_frame _ _, getD_frame _ _, getD_frame _ _,
   getD_frame _ _, getD_frame _ _, getD_frame _ _, getD_frame _ _,
   getD_frame _ _, getD_frame _ _, getD_frame _ _, getD_frame _ _,
   getD_frame _ _, getD_frame _ _, getD_frame _ _, getD_frame _ _,
   getD_frame _ _, getD_frame _ _, getD_frame _ _, getD_frame _ _,
   getD_frame _ _⟩

/-- An update object supplying only a new gear value. -/
def gearOnlyU : PartialData := { gear := some "D" }

theorem c9_merge_is_partial_update_witness :
    (merge initialData gearOnlyU).gear = "D" ∧
    (merge initialData gearOnlyU).speed = initialData.speed :=
  ⟨(c9_merge_is_partial_update initialData gearOnlyU).2.2.2.1.2 "D" rfl,
   (c9_merge_is_partial_update initialData gearOnlyU).1.1 rfl⟩

/-- A parsed `active_route` payload whose `error` field is non-null but the
empty string — falsy in JavaScript. -/
def routeEmptyErr : Route where
  destination := "Berlin"
  energy_at_arrival := 0
  miles_to_arrival := 0
  minutes_to_arrival := 0
  traffic_minutes_delay := 0
  location := none
  error := some ""

/-- A JSON parser returning the empty-string-error route for every payload. -/
def parseEmptyErr : String → Except Unit Route := fun _ => .ok routeEmptyErr

/-- C1 (counterexample): an `active_route` payload that parses with a
NON-NULL error field — the empty string — does NOT clear the navigation
fields: the handler tests JavaScript truthiness, the empty string is falsy,
so the route is stored as active and its destination is installed instead
of being cleared. -/
theorem c1_counterexample :
    parseEmptyErr "payload" = .ok routeEmptyErr ∧
    routeEmptyErr.error ≠ none ∧
    (mkUpdates parseEmptyErr cPfx (cPfx ++ "/active_route") "payload" 0).activeRoute
      = some (some routeEmptyErr) ∧
    (mkUpdates parseEmptyErr cPfx (cPfx ++ "/active_route") "payload" 0).destination
      = some "Berlin" := by
  refine ⟨rfl, by simp [routeEmptyErr], ?_, ?_⟩ <;>
    simp [mkUpdates, upSpeed, upBatteryLevel, upPower, upGear, upRange,
      upOutsideTemp, upInsideTemp, upOdometer, upHeading, upElevation,
      upGeofence, upState, upLocked, upChargerPower, upTimeToFullCharge,
      upChargeLimitSoc, upDestination, upEstArrivalTime, upTimeToArrival,
      upARDest, upARMins, upAR, app_cancel, parseEmptyErr, routeEmptyErr,
      truthyStr]

/-- C1 (amended): when the `active_route` payload parses with a TRUTHY error
field (non-null and non-empty string), the reducer clears the navigation
state entirely — `activeRoute` becomes null, `destination` the empty
string, `timeToArrival` zero and `estArrivalTime` the empty string — and
every other field of the merged record is left unchanged, overriding
whatever the legacy flat topics had previously set. -/
theorem c1_amended_truthy_error_clears (parse : String → Except Unit Route)
    (pfx d : String) (now : ℚ) (s : TeslaData) (r : Route) (e : String)
    (hp : parse d = .ok r) (he : r.error = some e) (hne : e ≠ "") :
    step parse pfx s ⟨pfx ++ "/active_route", d⟩ now =
      { s with activeRoute := none, destination := "",
               timeToArrival := .val 0, estArrivalTime := .str "" } := by
  rw [step_eq_merge]
  have hu : mkUpdates parse pfx (pfx ++ "/active_route") d now =
      { destination := some "", estArrivalTime := some (ETime.str ""),
        timeToArrival := some (.val 0), activeRoute := some none } := by
    simp [mkUpdates, upSpeed, upBatteryLevel, upPower, upGear, upRange,
      upOutsideTemp, upInsideTemp, upOdometer, upHeading, upElevation,
      upGeofence, upState, upLocked, upChargerPower, upTimeToFullCharge,
      upChargeLimitSoc, upDestination, upEstArrivalTime, upTimeToArrival,
      upARDest, upARMins, upAR, app_cancel, hp, truthyStr, he, hne, emptyU]
  rw [hu]
  simp [merge]

/-- A parsed `active_route` payload carrying the truthy error `no_route`. -/
def routeNoRoute : Route where
  destination := ""
  energy_at_arrival := 0
  miles_to_arrival := 0
  minutes_to_arrival := 0
  traffic_minutes_delay := 0
  location := none
  error := some "no_route"

/-- A JSON parser returning the `no_route` error route for every payload. -/
def parseNoRoute : String → Except Unit Route := fun _ => .ok routeNoRoute

/-- A prior state in which the legacy flat topics have already installed
non-empty navigation values. -/
def navFilled : TeslaData :=
  { initialData with destination := "Hamburg", timeToArrival := .val 9,
                     estArrivalTime := .str "2024-01-01T10:00:00Z" }

theorem c1_amended_truthy_error_clears_witness :
    step parseNoRoute cPfx navFilled ⟨cPfx ++ "/active_route", "payload"⟩ 0 =
      { navFilled with activeRoute := none, destination := "",
                       timeToArrival := .val 0, estArrivalTime := .str "" } :=
  c1_amended_truthy_error_clears parseNoRoute cPfx "payload" 0 navFilled
    routeNoRoute "no_route" rfl rfl (by decide)

/-- C6: the reducer is a total function — in particular, when the
`active_route` payload fails to parse as JSON, the inner catch substitutes
the safe default: the update clears the active-route sub-record to null
(never a partially-parsed value) and empties the destination, and the
merged record keeps every other field unchanged. -/
theorem c6_malformed_active_route_cleared (parse : String → Except Unit Route)
    (pfx d : String) (now : ℚ) (s : TeslaData) (h : parse d = .error ()) :
    (mkUpdates parse pfx (pfx ++ "/active_route") d now).activeRoute = some none ∧
    step parse pfx s ⟨pfx ++ "/active_route", d⟩ now =
      { s with activeRoute := none, destination := "" } := by
  have hu : mkUpdates parse pfx (pfx ++ "/active_route") d now =
      { destination := some "", activeRoute := some none } := by
    simp [mkUpdates, upSpeed, upBatteryLevel, upPower, upGear, upRange,
      upOutsideTemp, upInsideTemp, upOdometer, upHeading, upElevation,
      upGeofence, upState, upLocked, upChargerPower, upTimeToFullCharge,
      upChargeLimitSoc, upDestination, upEstArrivalTime, upTimeToArrival,
      upARDest, upARMins, upAR, app_cancel, h, emptyU]
  refine ⟨by rw [hu], ?_⟩
  rw [step_eq_merge, hu]
  simp [merge]

theorem c6_malformed_active_route_cleared_witness :
    (mkUpdates parseFail cPfx (cPfx ++ "/active_route") "not json" 0).activeRoute
      = some none ∧
    step parseFail cPfx navFilled ⟨cPfx ++ "/active_route", "not json"⟩ 0 =
      { navFilled with activeRoute := none, destination := "" } :=
  c6_malformed_active_route_cleared parseFail cPfx "not json" 0 navFilled rfl

/-- C2: whenever an update carries an estimated arrival clock value, that
value equals the wall-clock time `now` at which the message is processed
plus `minutes_to_arrival * 60000` milliseconds — for the flat
`active_route_minutes_to_arrival` topic and for a successfully parsed
error-free `active_route` payload alike. The derivation is a function of
the `now` argument of the call and of nothing else in the envelope, so
re-sending a minutes value at a later wall-clock time yields a value
recomputed from the new current time. -/
theorem c2_eta_from_current_time (parse : String → Except Unit Route)
    (pfx d : String) (now : ℚ) :
    (∀ q : ℚ, parseFloat d = .val q → 0 < q →
      (mkUpdates parse pfx (pfx ++ "/active_route_minutes_to_arrival") d now).estArrivalTime
        = some (.iso (now + q * 60000))) ∧
    (∀ r : Route, parse d = .ok r → truthyStr r.error = false →
      r.minutes_to_arrival ≠ 0 →
      (mkUpdates parse pfx (pfx ++ "/active_route") d now).estArrivalTime
        = some (.iso (now + r.minutes_to_arrival * 60000))) := by
  constructor
  · intro q hq hpos
    simp [mkUpdates, upSpeed, upBatteryLevel, upPower, upGear, upRange,
      upOutsideTemp, upInsideTemp, upOdometer, upHeading, upElevation,
      upGeofence, upState, upLocked, upChargerPower, upTimeToFullCharge,
      upChargeLimitSoc, upDestination, upEstArrivalTime, upTimeToArrival,
      upARDest, upARMins, upAR, app_cancel, hq, hpos, JsNum.gtZero,
      JsNum.toQ, emptyU]
  · intro r hr herr hmins
    simp [mkUpdates, upSpeed, upBatteryLevel, upPower, upGear, upRange,
      upOutsideTemp, upInsideTemp, upOdometer, upHeading, upElevation,
      upGeofence, upState, upLocked, upChargerPower, upTimeToFullCharge,
      upChargeLimitSoc, upDestination, upEstArrivalTime, upTimeToArrival,
      upARDest, upARMins, upAR, app_cancel, hr, herr, hmins, emptyU]

theorem c2_eta_from_current_time_witness :
    parseFloat "15" = .val 15 ∧
    (0 : ℚ) < 15 ∧
    (mkUpdates parseFail cPfx (cPfx ++ "/active_route_minutes_to_arrival") "15"
        1000).estArrivalTime = some (.iso (1000 + 15 * 60000)) ∧
    (mkUpdates parseFail cPfx (cPfx ++ "/active_route_minutes_to_arrival") "15"
        61000).estArrivalTime = some (.iso (61000 + 15 * 60000)) := by
  have hp : parseFloat "15" = .val 15 := by
    simp [parseFloat, takeDigits, digitVal]
    norm_num [intVal]
  exact ⟨hp, by norm_num,
    (c2_eta_from_current_time parseFail cPfx "15" 1000).1 15 hp (by norm_num),
    (c2_eta_from_current_time parseFail cPfx "15" 61000).1 15 hp (by norm_num)⟩

/-- C10: on the `active_route_minutes_to_arrival` topic the update always
overwrites `timeToArrival` with the parsed value — NaN included — but
carries a new `estArrivalTime` only when the parsed value is strictly
positive; when it is zero, negative or NaN the update leaves
`estArrivalTime` unassigned, so the previously merged value is retained
unchanged by the merge. -/
theorem c10_minutes_gating (parse : String → Except Unit Route)
    (pfx d : String) (now : ℚ) (s : TeslaData) :
    ((mkUpdates parse pfx (pfx ++ "/active_route_minutes_to_arrival") d now).timeToArrival
      = some (parseFloat d)) ∧
    ((parseFloat d).gtZero = true →
      (mkUpdates parse pfx (pfx ++ "/active_route_minutes_to_arrival") d now).estArrivalTime
        = some (.iso (now + (parseFloat d).toQ * 60000))) ∧
    ((parseFloat d).gtZero = false →
      (mkUpdates parse pfx (pfx ++ "/active_route_minutes_to_arrival") d now).estArrivalTime
        = none ∧
      (step parse pfx s ⟨pfx ++ "/active_route_minutes_to_arrival", d⟩ now).estArrivalTime
        = s.estArrivalTime) := by
  have hch := upARMins_eq pfx (pfx ++ "/active_route_minutes_to_arrival") d now
  refine ⟨?_, ?_, ?_⟩
  · simp [mkUpdates, upSpeed, upBatteryLevel, upPower, upGear, upRange,
      upOutsideTemp, upInsideTemp, upOdometer, upHeading, upElevation,
      upGeofence, upState, upLocked, upChargerPower, upTimeToFullCharge,
      upChargeLimitSoc, upDestination, upEstArrivalTime, upTimeToArrival,
      upARDest, upARMins_eq, upAR, app_cancel, emptyU]
  · intro hpos
    simp [mkUpdates, upSpeed, upBatteryLevel, upPower, upGear, upRange,
      upOutsideTemp, upInsideTemp, upOdometer, upHeading, upElevation,
      upGeofence, upState, upLocked, upChargerPower, upTimeToFullCharge,
      upChargeLimitSoc, upDestination, upEstArrivalTime, upTimeToArrival,
      upARDest, upARMins_eq, upAR, app_cancel, hpos, emptyU]
  · intro hneg
    have hest : (mkUpdates parse pfx (pfx ++ "/active_route_minutes_to_arrival") d
        now).estArrivalTime = none := by
      simp [mkUpdates, upSpeed, upBatteryLevel, upPower, upGear, upRange,
        upOutsideTemp, upInsideTemp, upOdometer, upHeading, upElevation,
        upGeofence, upState, upLocked, upChargerPower, upTimeToFullCharge,
        upChargeLimitSoc, upDestination, upEstArrivalTime, upTimeToArrival,
        upARDest, upARMins_eq, upAR, app_cancel, hneg, emptyU]
    refine ⟨hest, ?_⟩
    rw [step_eq_merge]
    show (mkUpdates parse pfx (pfx ++ "/active_route_minutes_to_arrival") d
      now).estArrivalTime.getD s.estArrivalTime = s.estArrivalTime
    rw [hest]
    rfl

theorem c10_minutes_gating_witness :
    (parseFloat "junk").gtZero = false ∧
    (mkUpdates parseFail cPfx (cPfx ++ "/active_route_minutes_to_arrival") "junk"
        0).timeToArrival = some .nan ∧
    (step parseFail cPfx navFilled ⟨cPfx ++ "/active_route_minutes_to_arrival", "junk"⟩
        0).estArrivalTime = navFilled.estArrivalTime := by
  have hgt : (parseFloat "junk").gtZero = false := by decide
  have hnan : parseFloat "junk" = .nan := by decide
  refine ⟨hgt, ?_, ?_⟩
  · have := (c10_minutes_gating parseFail cPfx "junk" 0 navFilled).1
    rw [hnan] at this
    exact this
  · exact ((c10_minutes_gating parseFail cPfx "junk" 0 navFilled).2.2 hgt).2

/-- A legacy flat `destination` message. -/
def m3dest : Msg := ⟨cPfx ++ "/destination", "Aachen"⟩

/-- A newer flat `active_route_destination` message for the same logical
field. -/
def m3ar : Msg := ⟨cPfx ++ "/active_route_destination", "Bonn"⟩

/-- Live broker order: legacy destination first, then the newer topic. -/
def c3Msgs : List (Msg × ℚ) := [(m3dest, 0), (m3ar, 0)]

/-- A cache replay of the same two distinct topics in the opposite order. -/
def c3Replay : List (Msg × ℚ) := [(m3ar, 0), (m3dest, 0)]

theorem c3dest_updates :
    (mkUpdates parseFail cPfx (cPfx ++ "/destination") "Aachen" 0).destination
      = some "Aachen" ∧
    (mkUpdates parseFail cPfx (cPfx ++ "/active_route_destination") "Bonn"
        0).destination = some "Bonn" := by
  constructor <;>
    simp [mkUpdates, upSpeed, upBatteryLevel, upPower, upGear, upRange,
      upOutsideTemp, upInsideTemp, upOdometer, upHeading, upElevation,
      upGeofence, upState, upLocked, upChargerPower, upTimeToFullCharge,
      upChargeLimitSoc, upDestination, upEstArrivalTime, upTimeToArrival,
      upARDest, upARMins, upAR, app_cancel, emptyU]

/-- C3 (counterexample): two cached topics that write the same
vehicle-state field. The replay list is a permutation of the Topic Cache
left by the live sequence, yet the replayed client ends with destination
`Aachen` while the live client ends with `Bonn` — replay order is not
equivalent to arrival order when distinct topics share a field. -/
theorem c3_counterexample :
    (c3Replay.map Prod.fst).Perm (cacheOf c3Msgs) ∧
    run parseFail cPfx initialData c3Replay ≠
      run parseFail cPfx initialData c3Msgs := by
  constructor
  · have hc : cacheOf c3Msgs = [m3dest, m3ar] := by
      simp [cacheOf, c3Msgs, cacheUpdate, m3dest, m3ar, app_cancel]
    rw [hc]
    show ([m3ar, m3dest] : List Msg).Perm [m3dest, m3ar]
    exact List.Perm.swap m3dest m3ar []
  · intro h
    have hd := congrArg TeslaData.destination h
    have e1 : run parseFail cPfx initialData c3Replay =
        merge (merge initialData
          (mkUpdates parseFail cPfx m3ar.topic m3ar.data 0))
          (mkUpdates parseFail cPfx m3dest.topic m3dest.data 0) := by
      show step parseFail cPfx (step parseFail cPfx initialData m3ar 0) m3dest 0 = _
      rw [step_eq_merge, step_eq_merge]
    have e2 : run parseFail cPfx initialData c3Msgs =
        merge (merge initialData
          (mkUpdates parseFail cPfx m3dest.topic m3dest.data 0))
          (mkUpdates parseFail cPfx m3ar.topic m3ar.data 0) := by
      show step parseFail cPfx (step parseFail cPfx initialData m3dest 0) m3ar 0 = _
      rw [step_eq_merge, step_eq_merge]
    rw [e1, e2] at hd
    have hda := c3dest_updates.1
    have hdb := c3dest_updates.2
    simp only [m3dest, m3ar] at hd
    rw [show (merge (merge initialData
        (mkUpdates parseFail cPfx (cPfx ++ "/active_route_destination") "Bonn" 0))
        (mkUpdates parseFail cPfx (cPfx ++ "/destination") "Aachen" 0)).destination
      = "Aachen" by simp [merge, hda],
      show (merge (merge initialData
        (mkUpdates parseFail cPfx (cPfx ++ "/destination") "Aachen" 0))
        (mkUpdates parseFail cPfx (cPfx ++ "/active_route_destination") "Bonn" 0)).destination
      = "Bonn" by simp [merge, hdb]] at hd
    exact absurd hd (by decide)

/-- C3 (amended): for message sequences that avoid the navigation topic
families — the topics whose handlers write the shared `destination`,
`estArrivalTime`, `timeToArrival` and `activeRoute` fields — a client that
joins late and merges the Topic Cache contents in ANY order (and at any
processing times) ends in exactly the state of a client that merged every
live message in arrival order from the start. -/
theorem c3_amended_cache_replay_equiv (parse : String → Except Unit Route)
    (pfx : String) (msgs replay : List (Msg × ℚ))
    (hnav : ∀ p ∈ msgs, p.1.topic ∉ navTopics pfx)
    (hperm : (replay.map Prod.fst).Perm (cacheOf msgs)) :
    run parse pfx initialData replay = run parse pfx initialData msgs := by
  have hnavR : ∀ p ∈ replay, p.1.topic ∉ navTopics pfx := by
    intro p hp
    have hmem : p.1 ∈ cacheOf msgs :=
      hperm.mem_iff.1 (List.mem_map_of_mem Prod.fst hp)
    obtain ⟨q, hq, heq⟩ := cacheOf_mem hmem
    exact heq ▸ hnav q hq
  have hnavRM : ∀ m ∈ replay.map Prod.fst, m.topic ∉ navTopics pfx := by
    intro m hm
    obtain ⟨p, hp, heq⟩ := List.mem_map.1 hm
    exact heq ▸ hnavR p hp
  have hnodupR : ((replay.map Prod.fst).map Msg.topic).Nodup :=
    (List.Perm.nodup_iff (hperm.map Msg.topic)).2 (cacheOf_nodup msgs)
  rw [run_eq_runM parse pfx replay hnavR initialData,
    runM_perm parse pfx hperm hnodupR hnavRM initialData]
  exact cache_replay parse pfx msgs hnav initialData

/-- Live sequence for the witness: speed then battery level, with the speed
topic updated twice so that the cache holds only its latest value. -/
def c3wMsgs : List (Msg × ℚ) :=
  [(⟨cPfx ++ "/speed", "10"⟩, 0), (⟨cPfx ++ "/battery_level", "88"⟩, 5),
   (⟨cPfx ++ "/speed", "42"⟩, 9)]

/-- Cache replay for the witness: the two cached entries in the opposite
order and at later processing times. -/
def c3wReplay : List (Msg × ℚ) :=
  [(⟨cPfx ++ "/battery_level", "88"⟩, 100), (⟨cPfx ++ "/speed", "42"⟩, 101)]

theorem c3_amended_cache_replay_equiv_witness :
    run parseFail cPfx initialData c3wReplay =
      run parseFail cPfx initialData c3wMsgs :=
  c3_amended_cache_replay_equiv parseFail cPfx c3wMsgs c3wReplay
    (by decide) (by decide)
